import Mathlib

/-!
Shallow embedding of the session/token lifecycle engine of the
`habit_tracker` backend (files `app/auth/auth.py`, `app/auth/router.py`,
`app/auth/dependencies.py`, model `app/auth/models.py`).

The persistent store is modelled as a list of refresh-token rows plus a
list of user rows and an autoincrement counter for primary keys.
Timestamps are integers (UTC seconds).  SQL `UPDATE ... SET is_revoked =
true WHERE c` is modelled by mapping a conditional record update over the
row list, with `rowcount` the number of matched rows; `SELECT ...` is a
`find?`/`filter` over the list.  JWT encoding, cookies and logging are
transport-level and are modelled opaquely.
-/

namespace HabitTracker

/-- A row of the `refreshtokens` table (`app/auth/models.py` `RefreshToken`,
with `id` and `created_at` inherited from `Base` in `app/dao/database.py`). -/
structure RefreshTokenRec where
  id : Nat
  user_id : Nat
  token : String
  expires_at : Int
  is_revoked : Bool
  user_agent : Option String
  ip_address : Option String
  created_at : Int
  deriving Repr, DecidableEq

/-- The part of a `users` row the token engine touches. -/
structure UserRec where
  id : Nat
  public_id : String
  deriving Repr, DecidableEq

/-- The database state seen by the session/token engine. -/
structure Store where
  tokens : List RefreshTokenRec
  users : List UserRec
  nextId : Nat
  deriving Repr, DecidableEq

/-- `settings.REFRESH_TOKEN_EXPIRE_DAYS` (`app/config.py`, default 7). -/
def REFRESH_TOKEN_EXPIRE_DAYS : Int := 7

/-- Refresh-token lifetime in seconds: `timedelta(days=REFRESH_TOKEN_EXPIRE_DAYS)`. -/
def refreshTokenLifetime : Int := REFRESH_TOKEN_EXPIRE_DAYS * 24 * 60 * 60

/-- The error classes raised by the auth endpoints (`app/exceptions.py`). -/
inductive AuthError where
  | noRefreshToken
  | noValidRefreshToken
  | noSession
  | maxSessions
  | tokenExpired
  | noJwt
  | noUserId
  | userNotFound
  deriving Repr, DecidableEq

/-- Outcome of a route handler: normal return, raised `HTTPException`, or an
uncaught Python exception (crash).  Every constructor carries the store as it
stands when the handler finishes. -/
inductive Outcome (α : Type) where
  | ok (s : Store) (v : α)
  | err (s : Store) (e : AuthError)
  | crash (s : Store) (msg : String)
  deriving Repr, DecidableEq

/-- The store carried by an outcome. -/
def Outcome.state {α : Type} : Outcome α → Store
  | .ok s _ => s
  | .err s _ => s
  | .crash s _ => s

/-- Whether an outcome is a normal return. -/
def Outcome.isOk {α : Type} : Outcome α → Bool
  | .ok _ _ => true
  | _ => false

/-- Python truthiness of an optional header string: `None` and `""` are falsy. -/
def uaTruthy : Option String → Bool
  | none => false
  | some s => !s.isEmpty

/-- `UPDATE refreshtokens SET is_revoked = true WHERE c`: the row list after
the update. -/
def revokeWhere (c : RefreshTokenRec → Bool) (l : List RefreshTokenRec) :
    List RefreshTokenRec :=
  l.map fun r => if c r then { r with is_revoked := true } else r

/-- `result.rowcount` of a statement whose WHERE clause is `c`. -/
def rowcount (c : RefreshTokenRec → Bool) (l : List RefreshTokenRec) : Nat :=
  (l.filter c).length

/-- `validate_refresh_token` (`app/auth/auth.py:92`): select the first row with
the exact secret, not revoked, and `expires_at > now`. -/
def validate_refresh_token (tokens : List RefreshTokenRec) (token : String)
    (now : Int) : Option RefreshTokenRec :=
  tokens.find? fun r => r.token == token && !r.is_revoked && decide (now < r.expires_at)

/-- `revoke_refresh_token` (`app/auth/auth.py:106`): revoke every row with the
given secret; returns `rowcount > 0`. -/
def revoke_refresh_token (s : Store) (token : String) : Store × Bool :=
  let c := fun r : RefreshTokenRec => r.token == token
  ({ s with tokens := revokeWhere c s.tokens }, decide (0 < rowcount c s.tokens))

/-- WHERE clause of the revoke-same-device update inside `store_refresh_token`
(`app/auth/auth.py:64`): same user, same user-agent, not yet revoked. -/
def sameDeviceCond (uid : Nat) (ua : Option String) (r : RefreshTokenRec) : Bool :=
  r.user_id == uid && r.user_agent == ua && !r.is_revoked

/-- `store_refresh_token` (`app/auth/auth.py:47`): optionally revoke active
same-device tokens of the user, then insert the new row.  Returns the new
store and the inserted row. -/
def store_refresh_token (s : Store) (user_id : Nat) (token : String)
    (user_agent ip_address : Option String) (revoke_same_device : Bool)
    (now : Int) : Store × RefreshTokenRec :=
  let expires_at := now + refreshTokenLifetime
  let tokens1 :=
    if revoke_same_device && uaTruthy user_agent then
      revokeWhere (sameDeviceCond user_id user_agent) s.tokens
    else s.tokens
  let created : RefreshTokenRec :=
    { id := s.nextId, user_id := user_id, token := token,
      expires_at := expires_at, is_revoked := false,
      user_agent := user_agent, ip_address := ip_address, created_at := now }
  (⟨tokens1 ++ [created], s.users, s.nextId + 1⟩, created)

/-- The response body of login/refresh (`TokenResponse`); the access token is
modelled by the subject it encodes. -/
structure TokenResponse where
  access_sub : String
  refresh_token : String
  deriving Repr, DecidableEq

/-- `set_auth_tokens` (`app/auth/auth.py:125`): persist the new refresh secret
(`revoke_same_device` is left at its default `True`) and return the token
pair; cookie setting is transport-level and not part of the store. -/
def set_auth_tokens (s : Store) (user_id : Nat) (public_id : String)
    (user_agent ip_address : Option String) (newSecret : String) (now : Int) :
    Store × TokenResponse :=
  let p := store_refresh_token s user_id newSecret user_agent ip_address true now
  (p.1, { access_sub := public_id, refresh_token := newSecret })

/-- `UsersDAO.find_one_or_none(filters=[{"id": uid}])`. -/
def find_user (users : List UserRec) (uid : Nat) : Option UserRec :=
  users.find? fun u => u.id == uid

/-- The `/refresh` route handler `refresh_tokens` (`app/auth/router.py:70`).
`presented` is the secret resolved from body or cookie (`none` when neither is
given).  `user_agent`/`ip_address` describe the incoming request.  The lookup
`user = UsersDAO.find_one_or_none(...)` followed by `user.id` crashes with an
`AttributeError` when the user row is gone, which the `crash` outcome records. -/
def refresh_tokens (s : Store) (presented : Option String)
    (user_agent ip_address : Option String) (now : Int) (newSecret : String) :
    Outcome TokenResponse :=
  match presented with
  | none => .err s .noRefreshToken
  | some t =>
    if t.isEmpty then .err s .noRefreshToken
    else
      match validate_refresh_token s.tokens t now with
      | none => .err s .noValidRefreshToken
      | some stored =>
        match find_user s.users stored.user_id with
        | none => .crash s "AttributeError: NoneType object has no id"
        | some u =>
          if u.id != stored.user_id then .err s .noValidRefreshToken
          else
            let s1 := (revoke_refresh_token s t).1
            let p := set_auth_tokens s1 stored.user_id u.public_id user_agent ip_address newSecret now
            .ok p.1 p.2

/-- `revoke_all_user_refresh_tokens` (`app/auth/auth.py:162`). -/
def revoke_all_user_refresh_tokens (s : Store) (uid : Nat) : Store × Nat :=
  let c := fun r : RefreshTokenRec => r.user_id == uid && !r.is_revoked
  ({ s with tokens := revokeWhere c s.tokens }, rowcount c s.tokens)

/-- WHERE clause of the cleanup DELETE (`app/auth/auth.py:181`):
`expires_at < now OR is_revoked`. -/
def cleanupCond (now : Int) (r : RefreshTokenRec) : Bool :=
  decide (r.expires_at < now) || r.is_revoked

/-- `cleanup_expired_tokens` (`app/auth/auth.py:179`): hard-delete matching
rows, return the rowcount. -/
def cleanup_expired_tokens (s : Store) (now : Int) : Store × Nat :=
  ({ s with tokens := s.tokens.filter fun r => !cleanupCond now r },
    rowcount (cleanupCond now) s.tokens)

/-- A row is an active session of `uid` at `now` (WHERE clause of
`get_active_session_tokens`, `app/auth/auth.py:190`). -/
def activeFor (uid : Nat) (now : Int) (r : RefreshTokenRec) : Bool :=
  r.user_id == uid && !r.is_revoked && decide (now < r.expires_at)

/-- `ORDER BY created_at DESC`: newest first. -/
def newestFirst (a b : RefreshTokenRec) : Prop :=
  b.created_at ≤ a.created_at

instance : DecidableRel newestFirst := fun a b =>
  inferInstanceAs (Decidable (b.created_at ≤ a.created_at))

instance : IsTotal RefreshTokenRec newestFirst :=
  ⟨fun a b => le_total b.created_at a.created_at⟩

instance : IsTrans RefreshTokenRec newestFirst :=
  ⟨fun _ _ _ h1 h2 => le_trans h2 h1⟩

/-- `get_active_session_tokens` (`app/auth/auth.py:190`): active sessions of
the user, newest first. -/
def get_active_session_tokens (s : Store) (uid : Nat) (now : Int) :
    List RefreshTokenRec :=
  (s.tokens.filter (activeFor uid now)).insertionSort newestFirst

/-- `revoke_session_by_id` (`app/auth/auth.py:222`): revoke the row with the
given id owned by the user; returns `rowcount > 0`.  The WHERE clause does not
test `is_revoked`, so an already-revoked owned row still matches. -/
def revoke_session_by_id (s : Store) (token_id uid : Nat) : Store × Bool :=
  let c := fun r : RefreshTokenRec => r.id == token_id && r.user_id == uid
  ({ s with tokens := revokeWhere c s.tokens }, decide (0 < rowcount c s.tokens))

/-- The `/sessions/{id}` route handler `revoke_session` (`app/auth/router.py:145`). -/
def revoke_session (s : Store) (session_id uid : Nat) : Outcome Unit :=
  let p := revoke_session_by_id s session_id uid
  if p.2 then .ok p.1 () else .err p.1 .noSession

/-- `limit_active_sessions` (`app/auth/auth.py:242`): if more than
`max_sessions` sessions are active, revoke all but the `max_sessions` newest,
returning the rowcount; otherwise do nothing and return 0. -/
def limit_active_sessions (s : Store) (uid : Nat) (now : Int)
    (max_sessions : Nat) : Store × Nat :=
  let tokens := get_active_session_tokens s uid now
  if max_sessions < tokens.length then
    let ids := (tokens.drop max_sessions).map RefreshTokenRec.id
    let c := fun r : RefreshTokenRec => ids.contains r.id
    ({ s with tokens := revokeWhere c s.tokens }, rowcount c s.tokens)
  else (s, 0)

/-- The `/sessions/limit` route handler `limit_sessions`
(`app/auth/router.py:156`): reject a requested cap below 1 before touching the
store. -/
def limit_sessions (s : Store) (uid : Nat) (now : Int) (max_sessions : Int) :
    Outcome Nat :=
  if max_sessions < 1 then .err s .maxSessions
  else
    let p := limit_active_sessions s uid now max_sessions.toNat
    .ok p.1 p.2

/-- An operation of the session/token core, as dispatched by the routes. -/
inductive Op where
  | store (uid : Nat) (secret : String) (ua ip : Option String) (revokeSame : Bool)
  | validate (secret : String)
  | revokeByToken (secret : String)
  | revokeAll (uid : Nat)
  | revokeById (tid uid : Nat)
  | listActive (uid : Nat)
  | capSessions (uid : Nat) (n : Int)
  | refresh (presented : Option String) (ua ip : Option String) (newSecret : String)
  | cleanup
  deriving Repr, DecidableEq

/-- The store after running one operation at time `now` (read-only operations
leave it unchanged; handlers that raise leave it as carried by their outcome). -/
def stepState (op : Op) (s : Store) (now : Int) : Store :=
  match op with
  | .store uid sec ua ip rsd => (store_refresh_token s uid sec ua ip rsd now).1
  | .validate _ => s
  | .revokeByToken sec => (revoke_refresh_token s sec).1
  | .revokeAll uid => (revoke_all_user_refresh_tokens s uid).1
  | .revokeById tid uid => (revoke_session_by_id s tid uid).1
  | .listActive _ => s
  | .capSessions uid n => (limit_sessions s uid now n).state
  | .refresh p ua ip ns => (refresh_tokens s p ua ip now ns).state
  | .cleanup => (cleanup_expired_tokens s now).1

/-- The store after a sequence of timed operations. -/
def runOps (ops : List (Op × Int)) (s : Store) : Store :=
  ops.foldl (fun st p => stepState p.1 st p.2) s

/-- Every stored row's primary key is below the autoincrement counter. -/
def IdsBounded (s : Store) : Prop :=
  ∀ r ∈ s.tokens, r.id < s.nextId

/-- Primary keys of the stored rows are pairwise distinct. -/
def NodupIds (l : List RefreshTokenRec) : Prop :=
  (l.map RefreshTokenRec.id).Nodup

instance (s : Store) : Decidable (IdsBounded s) :=
  inferInstanceAs (Decidable (∀ r ∈ s.tokens, r.id < s.nextId))

instance (l : List RefreshTokenRec) : Decidable (NodupIds l) :=
  inferInstanceAs (Decidable (List.Nodup _))

/-- All rows of the list carrying the given primary key are revoked. -/
def RevokedIdL (l : List RefreshTokenRec) (rid : Nat) : Prop :=
  ∀ r ∈ l, r.id = rid → r.is_revoked = true

/-- All primary keys of the list are below `n`. -/
def BoundedL (l : List RefreshTokenRec) (n : Nat) : Prop :=
  ∀ r ∈ l, r.id < n

/-- Monotonic revocation at a state: every row with the given key is revoked,
and `find_active` can never return a row with that key. -/
def RevocationMonotonicSpec (s : Store) (rid : Nat) : Prop :=
  (∀ r' ∈ s.tokens, r'.id = rid → r'.is_revoked = true) ∧
  (∀ sec now2 r0, validate_refresh_token s.tokens sec now2 = some r0 → r0.id ≠ rid)

/-- What capping sessions guarantees: a cap below 1 is rejected with no
change; otherwise the active-session list is sorted newest-first, is a
permutation of the active rows, and the op returns a store in which exactly
the active sessions beyond the `n` newest are revoked — everything else is
untouched, the `n` newest survive, and the revoked count is returned. -/
def CapSessionsSpec (s : Store) (uid : Nat) (now : Int) (n : Int) : Prop :=
  (n < 1 → limit_sessions s uid now n = .err s .maxSessions) ∧
  (1 ≤ n →
    (get_active_session_tokens s uid now).Sorted newestFirst ∧
    (get_active_session_tokens s uid now).Perm
      (s.tokens.filter (activeFor uid now)) ∧
    (∃ s2, limit_sessions s uid now n
        = .ok s2 ((get_active_session_tokens s uid now).drop n.toNat).length ∧
      (∀ r ∈ s.tokens,
          ((((get_active_session_tokens s uid now).drop n.toNat).map
            RefreshTokenRec.id).contains r.id) = false → r ∈ s2.tokens) ∧
      (∀ r2 ∈ s2.tokens,
          ((((get_active_session_tokens s uid now).drop n.toNat).map
            RefreshTokenRec.id).contains r2.id) = true → r2.is_revoked = true) ∧
      (∀ r ∈ (get_active_session_tokens s uid now).take n.toNat,
          r ∈ s2.tokens)))

/-- The claims a decoded JWT payload may carry. -/
structure Payload where
  exp : Option Int
  sub : Option String
  deriving Repr, DecidableEq

/-- Result of `jwt.decode` in `get_current_user`: a payload, or a `JWTError`. -/
inductive DecodeResult where
  | ok (p : Payload)
  | jwtError
  deriving Repr, DecidableEq

/-- Result of the access-token dependency `get_current_user`. -/
inductive UserAuthResult where
  | ok (u : UserRec)
  | err (e : AuthError)
  | crash (msg : String)
  deriving Repr, DecidableEq

/-- `get_current_user` (`app/auth/dependencies.py:37`).  After a successful
decode the code runs `int(payload.get("exp"))` BEFORE testing `not expire`,
so a payload without an `exp` claim raises a `TypeError` (crash); with
`exp` present, Python `not expire` is true exactly for the timestamp 0, and
`expire_time < now` rejects past expiries as `TokenExpiredException`. -/
def get_current_user (d : DecodeResult) (now : Int) (users : List UserRec) :
    UserAuthResult :=
  match d with
  | .jwtError => .err .noJwt
  | .ok p =>
    match p.exp with
    | none => .crash "TypeError: int() argument must not be NoneType"
    | some e =>
      if e == 0 || decide (e < now) then .err .tokenExpired
      else
        match p.sub with
        | none => .err .noUserId
        | some sub =>
          if sub.isEmpty then .err .noUserId
          else
            match users.find? (fun u => u.public_id == sub) with
            | none => .err .userNotFound
            | some u => .ok u

/-- What login with a present device fingerprint guarantees: every previously
stored non-revoked token of the same user and fingerprint is revoked (so
`find_active` can never return it again), while the newly inserted token is
unrevoked and, when its secret is fresh, is exactly what `find_active` returns
for that secret. -/
def LoginSameDeviceSpec (s : Store) (uid : Nat) (secret ua : String)
    (ip : Option String) (now : Int) : Prop :=
  (∀ r ∈ s.tokens, r.user_id = uid → r.user_agent = some ua → r.is_revoked = false →
      (∀ r' ∈ (store_refresh_token s uid secret (some ua) ip true now).1.tokens,
          r'.id = r.id → r'.is_revoked = true) ∧
      (∀ sec now2 r0,
          validate_refresh_token
              (store_refresh_token s uid secret (some ua) ip true now).1.tokens sec now2
            = some r0 → r0.id ≠ r.id)) ∧
  (store_refresh_token s uid secret (some ua) ip true now).2
      ∈ (store_refresh_token s uid secret (some ua) ip true now).1.tokens ∧
  (store_refresh_token s uid secret (some ua) ip true now).2.is_revoked = false ∧
  ((∀ r ∈ s.tokens, r.token ≠ secret) →
      validate_refresh_token
          (store_refresh_token s uid secret (some ua) ip true now).1.tokens secret now
        = some (store_refresh_token s uid secret (some ua) ip true now).2)

/-- Replay protection after a rotation that consumed secret `t` and left store
`s'`: presenting `t` again fails with the invalid-refresh-token error and
leaves the store untouched, exactly as presenting any secret unknown to the
store does. -/
def RotationSingleUseSpec (s' : Store) (t : String) : Prop :=
  (∀ ua2 ip2 now2 ns2,
      refresh_tokens s' (some t) ua2 ip2 now2 ns2 = .err s' .noValidRefreshToken) ∧
  (∀ sec, sec ≠ "" → (∀ r ∈ s'.tokens, r.token ≠ sec) →
      ∀ ua3 ip3 now3 ns3,
        refresh_tokens s' (some sec) ua3 ip3 now3 ns3 = .err s' .noValidRefreshToken)

/-- A store with two active tokens of user 1 on different devices: row 0 from
device "X", row 1 from device "Y" (reachable by two logins). -/
def c2Store : Store :=
  ⟨[⟨0, 1, "ta", 1000, false, some "X", none, 0⟩,
    ⟨1, 1, "tb", 1000, false, some "Y", none, 1⟩], [⟨1, "p1"⟩], 2⟩

/-! ## Helper lemmas -/

theorem mem_revokeWhere {c : RefreshTokenRec → Bool} {l : List RefreshTokenRec}
    {r' : RefreshTokenRec} (h : r' ∈ revokeWhere c l) :
    ∃ t ∈ l, r' = if c t then { t with is_revoked := true } else t := by
  rcases List.mem_map.mp h with ⟨t, ht, rfl⟩
  exact ⟨t, ht, rfl⟩

theorem mem_revokeWhere_of_mem {c : RefreshTokenRec → Bool} {l : List RefreshTokenRec}
    {t : RefreshTokenRec} (h : t ∈ l) :
    (if c t then { t with is_revoked := true } else t) ∈ revokeWhere c l :=
  List.mem_map.mpr ⟨t, h, rfl⟩

theorem mem_revokeWhere_self {c : RefreshTokenRec → Bool} {l : List RefreshTokenRec}
    {t : RefreshTokenRec} (h : t ∈ l) (hc : c t = false) : t ∈ revokeWhere c l := by
  unfold revokeWhere
  exact List.mem_map.mpr ⟨t, h, by simp [hc]⟩

theorem rowcount_eq_countP (c : RefreshTokenRec → Bool) (l : List RefreshTokenRec) :
    rowcount c l = l.countP c := by
  unfold rowcount
  exact (List.countP_eq_length_filter c l).symm

theorem rowcount_pos_iff (c : RefreshTokenRec → Bool) (l : List RefreshTokenRec) :
    0 < rowcount c l ↔ ∃ r ∈ l, c r = true := by
  rw [rowcount_eq_countP]
  exact List.countP_pos_iff

theorem revokeWhere_eq_self {c : RefreshTokenRec → Bool} {l : List RefreshTokenRec}
    (h : ∀ r ∈ l, c r = false) : revokeWhere c l = l := by
  unfold revokeWhere
  have h2 : ∀ r ∈ l, (if c r then { r with is_revoked := true } else r) = r := by
    intro r hr
    simp [h r hr]
  calc l.map (fun r => if c r then { r with is_revoked := true } else r)
      = l.map id := List.map_congr_left fun r hr => h2 r hr
    _ = l := List.map_id l

theorem rowcount_revokeWhere {c : RefreshTokenRec → Bool}
    (hc : ∀ r : RefreshTokenRec, c { r with is_revoked := true } = c r)
    (l : List RefreshTokenRec) : rowcount c (revokeWhere c l) = rowcount c l := by
  rw [rowcount_eq_countP, rowcount_eq_countP]
  unfold revokeWhere
  rw [List.countP_map]
  apply List.countP_congr
  intro r _
  by_cases h : c r = true <;> simp [Function.comp, h, hc r]

theorem revokeWhere_revokeWhere {c : RefreshTokenRec → Bool}
    (hc : ∀ r : RefreshTokenRec, c { r with is_revoked := true } = c r)
    (l : List RefreshTokenRec) :
    revokeWhere c (revokeWhere c l) = revokeWhere c l := by
  unfold revokeWhere
  rw [List.map_map]
  apply List.map_congr_left
  intro r _
  by_cases h : c r = true <;> simp [Function.comp, h, hc r]

theorem length_filter_not_add {α : Type} (p : α → Bool) (l : List α) :
    (l.filter fun a => !p a).length + (l.filter p).length = l.length := by
  induction l with
  | nil => rfl
  | cons a l ih =>
    by_cases h : p a = true <;> simp [List.filter_cons, h] <;> omega

theorem validate_eq_some_props {tokens : List RefreshTokenRec} {tok : String}
    {now : Int} {r0 : RefreshTokenRec}
    (h : validate_refresh_token tokens tok now = some r0) :
    r0 ∈ tokens ∧ r0.token = tok ∧ r0.is_revoked = false ∧ now < r0.expires_at := by
  have hmem := List.mem_of_find?_eq_some h
  have hp := List.find?_some h
  simp only [Bool.and_eq_true, beq_iff_eq, Bool.not_eq_true',
    decide_eq_true_eq] at hp
  exact ⟨hmem, hp.1.1, hp.1.2, hp.2⟩

theorem validate_eq_none_of_all_revoked {tokens : List RefreshTokenRec}
    {tok : String} (now : Int)
    (h : ∀ r ∈ tokens, r.token = tok → r.is_revoked = true) :
    validate_refresh_token tokens tok now = none := by
  apply List.find?_eq_none.mpr
  intro r hr hp
  simp only [Bool.and_eq_true, beq_iff_eq, Bool.not_eq_true',
    decide_eq_true_eq] at hp
  exact absurd (h r hr hp.1.1) (by simp [hp.1.2])

theorem validate_eq_none_of_fresh {tokens : List RefreshTokenRec}
    {tok : String} (now : Int) (h : ∀ r ∈ tokens, r.token ≠ tok) :
    validate_refresh_token tokens tok now = none := by
  apply List.find?_eq_none.mpr
  intro r hr hp
  simp only [Bool.and_eq_true, beq_iff_eq, Bool.not_eq_true',
    decide_eq_true_eq] at hp
  exact absurd hp.1.1 (h r hr)

theorem id_of_ite_mark (c : RefreshTokenRec → Bool) (t : RefreshTokenRec) :
    (if c t then { t with is_revoked := true } else t).id = t.id := by
  by_cases h : c t <;> simp [h]

theorem token_of_ite_mark (c : RefreshTokenRec → Bool) (t : RefreshTokenRec) :
    (if c t then { t with is_revoked := true } else t).token = t.token := by
  by_cases h : c t <;> simp [h]

theorem revoked_ite_mark_of_true {c : RefreshTokenRec → Bool}
    {t : RefreshTokenRec} (h : c t = true) :
    (if c t then { t with is_revoked := true } else t).is_revoked = true := by
  simp [h]

theorem revoked_ite_mark_mono {c : RefreshTokenRec → Bool}
    {t : RefreshTokenRec} (h : t.is_revoked = true) :
    (if c t then { t with is_revoked := true } else t).is_revoked = true := by
  by_cases hc : c t <;> simp [hc, h]

theorem refreshTokenLifetime_pos : (0 : Int) < refreshTokenLifetime := by
  norm_num [refreshTokenLifetime, REFRESH_TOKEN_EXPIRE_DAYS]

/-! ## Claim C9 -/

/-- Claim C9: `validate_refresh_token` (find_active) returns a stored record
iff some record's secret equals the presented secret exactly, its revoked flag
is false and its expiry is strictly later than now; any returned record is such
a stored record; and as a core operation it does not modify the store. -/
theorem validate_refresh_token_spec (tokens : List RefreshTokenRec)
    (tok : String) (now : Int) :
    ((validate_refresh_token tokens tok now).isSome = true ↔
        ∃ r ∈ tokens, r.token = tok ∧ r.is_revoked = false ∧ now < r.expires_at) ∧
    (∀ r0, validate_refresh_token tokens tok now = some r0 →
        r0 ∈ tokens ∧ r0.token = tok ∧ r0.is_revoked = false ∧ now < r0.expires_at) ∧
    (∀ us n now2, stepState (Op.validate tok) ⟨tokens, us, n⟩ now2 = ⟨tokens, us, n⟩) := by
  refine ⟨?_, ?_, fun us n now2 => rfl⟩
  · unfold validate_refresh_token
    rw [List.find?_isSome]
    constructor
    · rintro ⟨r, hr, hp⟩
      simp only [Bool.and_eq_true, beq_iff_eq, Bool.not_eq_true',
        decide_eq_true_eq] at hp
      exact ⟨r, hr, hp.1.1, hp.1.2, hp.2⟩
    · rintro ⟨r, hr, h1, h2, h3⟩
      exact ⟨r, hr, by simp [h1, h2, h3]⟩
  · intro r0 h
    have hmem := List.mem_of_find?_eq_some h
    have hp := List.find?_some h
    simp only [Bool.and_eq_true, beq_iff_eq, Bool.not_eq_true',
      decide_eq_true_eq] at hp
    exact ⟨hmem, hp.1.1, hp.1.2, hp.2⟩

/-- Witness for C9 on a concrete store. -/
theorem validate_refresh_token_spec_witness :
    (validate_refresh_token
        [⟨0, 1, "tok", 100, false, none, none, 0⟩] "tok" 5).isSome = true :=
  (validate_refresh_token_spec [⟨0, 1, "tok", 100, false, none, none, 0⟩] "tok" 5).1.mpr
    ⟨⟨0, 1, "tok", 100, false, none, none, 0⟩, by decide, by decide, by decide, by decide⟩

/-! ## Claim C8 -/

/-- Claim C8: the cleanup sweep hard-deletes exactly the rows satisfying
`expires_at < now OR revoked`, returns the number of rows deleted, and keeps
every other row unchanged (the remaining list is a sublist of the original);
users and the id counter are untouched. -/
theorem cleanup_expired_tokens_spec (s : Store) (now : Int) :
    (∀ r, r ∈ (cleanup_expired_tokens s now).1.tokens ↔
        r ∈ s.tokens ∧ ¬(r.expires_at < now) ∧ r.is_revoked = false) ∧
    (cleanup_expired_tokens s now).1.tokens.Sublist s.tokens ∧
    (cleanup_expired_tokens s now).1.tokens.length + (cleanup_expired_tokens s now).2
      = s.tokens.length ∧
    (cleanup_expired_tokens s now).2
      = (s.tokens.filter fun r => decide (r.expires_at < now) || r.is_revoked).length ∧
    (cleanup_expired_tokens s now).1.users = s.users ∧
    (cleanup_expired_tokens s now).1.nextId = s.nextId := by
  refine ⟨?_, ?_, ?_, ?_, rfl, rfl⟩
  · intro r
    unfold cleanup_expired_tokens cleanupCond
    rw [List.mem_filter]
    simp [not_or]
  · exact List.filter_sublist s.tokens
  · unfold cleanup_expired_tokens
    simp only [rowcount]
    exact length_filter_not_add (cleanupCond now) s.tokens
  · rfl

/-- Witness for C8 on a concrete store: one expired row, one revoked row and
one live row; exactly two are purged. -/
theorem cleanup_expired_tokens_spec_witness :
    (cleanup_expired_tokens
        ⟨[⟨0, 1, "a", 3, false, none, none, 0⟩,
          ⟨1, 1, "b", 100, true, none, none, 0⟩,
          ⟨2, 1, "c", 100, false, none, none, 0⟩], [], 3⟩ 10).2
      = (([⟨0, 1, "a", 3, false, none, none, 0⟩,
          ⟨1, 1, "b", 100, true, none, none, 0⟩,
          ⟨2, 1, "c", 100, false, none, none, 0⟩] :
            List RefreshTokenRec).filter
          fun r => decide (r.expires_at < 10) || r.is_revoked).length :=
  (cleanup_expired_tokens_spec
      ⟨[⟨0, 1, "a", 3, false, none, none, 0⟩,
        ⟨1, 1, "b", 100, true, none, none, 0⟩,
        ⟨2, 1, "c", 100, false, none, none, 0⟩], [], 3⟩ 10).2.2.2.1

/-! ## Claim C10 -/

/-- Claim C10: revoke-one-session-by-id succeeds exactly when some stored row
has the given id and belongs to the caller — regardless of whether that row is
already revoked — the router raises its not-found error exactly when no such
row exists, and repeating the call returns the same result on the same final
store (idempotence). -/
theorem revoke_session_by_id_spec (s : Store) (tid uid : Nat) :
    ((revoke_session_by_id s tid uid).2 = true ↔
        ∃ r ∈ s.tokens, r.id = tid ∧ r.user_id = uid) ∧
    (revoke_session_by_id (revoke_session_by_id s tid uid).1 tid uid
        = ((revoke_session_by_id s tid uid).1, (revoke_session_by_id s tid uid).2)) ∧
    ((¬ ∃ r ∈ s.tokens, r.id = tid ∧ r.user_id = uid) →
        revoke_session s tid uid = .err s .noSession) ∧
    ((∃ r ∈ s.tokens, r.id = tid ∧ r.user_id = uid) →
        revoke_session s tid uid = .ok (revoke_session_by_id s tid uid).1 ()) := by
  have hc : ∀ r : RefreshTokenRec,
      ((fun r : RefreshTokenRec => r.id == tid && r.user_id == uid)
        { r with is_revoked := true })
      = (fun r : RefreshTokenRec => r.id == tid && r.user_id == uid) r :=
    fun r => rfl
  have hiff : (revoke_session_by_id s tid uid).2 = true ↔
      ∃ r ∈ s.tokens, r.id = tid ∧ r.user_id = uid := by
    unfold revoke_session_by_id
    simp only [decide_eq_true_eq]
    rw [rowcount_pos_iff]
    constructor
    · rintro ⟨r, hr, hp⟩
      simp only [Bool.and_eq_true, beq_iff_eq] at hp
      exact ⟨r, hr, hp.1, hp.2⟩
    · rintro ⟨r, hr, h1, h2⟩
      exact ⟨r, hr, by simp [h1, h2]⟩
  refine ⟨hiff, ?_, ?_, ?_⟩
  · simp only [revoke_session_by_id]
    rw [revokeWhere_revokeWhere hc s.tokens]
    simp only [@rowcount_revokeWhere
      (fun r : RefreshTokenRec => r.id == tid && r.user_id == uid) hc s.tokens]
  · intro hno
    have hb : (revoke_session_by_id s tid uid).2 = false := by
      cases hex : (revoke_session_by_id s tid uid).2
      · rfl
      · exact absurd (hiff.mp hex) hno
    have hst : (revoke_session_by_id s tid uid).1 = s := by
      unfold revoke_session_by_id
      simp only
      have hall : ∀ r ∈ s.tokens,
          (fun r : RefreshTokenRec => r.id == tid && r.user_id == uid) r = false := by
        intro r hr
        by_contra hcon
        have : (r.id == tid && r.user_id == uid) = true := by
          cases h : (r.id == tid && r.user_id == uid)
          · exact absurd h hcon
          · rfl
        simp only [Bool.and_eq_true, beq_iff_eq] at this
        exact hno ⟨r, hr, this.1, this.2⟩
      rw [revokeWhere_eq_self hall]
    simp only [revoke_session]
    rw [hb, hst]
    simp
  · intro hyes
    have hb : (revoke_session_by_id s tid uid).2 = true := hiff.mpr hyes
    simp only [revoke_session]
    rw [hb]
    simp

/-- Witness for C10 on a concrete store holding an already-revoked owned row:
the call still reports success. -/
theorem revoke_session_by_id_spec_witness :
    (revoke_session_by_id ⟨[⟨7, 2, "x", 50, true, none, none, 0⟩], [], 8⟩ 7 2).2 = true :=
  (revoke_session_by_id_spec ⟨[⟨7, 2, "x", 50, true, none, none, 0⟩], [], 8⟩ 7 2).1.mpr
    ⟨⟨7, 2, "x", 50, true, none, none, 0⟩, by decide, by decide, by decide⟩

/-! ## Claim C4 -/

/-- Claim C4: on login with a non-empty device fingerprint, every
currently-active (indeed every non-revoked) refresh token of the same user
with an identical fingerprint is revoked before the new token is persisted;
the new token is active and is what `find_active` returns for its secret. -/
theorem store_refresh_token_revokes_same_device (s : Store) (uid : Nat)
    (secret ua : String) (ip : Option String) (now : Int)
    (hua : ua ≠ "") (hb : IdsBounded s) (hnd : NodupIds s.tokens) :
    LoginSameDeviceSpec s uid secret ua ip now := by
  have hcond : uaTruthy (some ua) = true := by
    unfold uaTruthy
    cases h : ua.isEmpty with
    | false => simp [h]
    | true => exact absurd ((String.isEmpty_iff ua).mp h) hua
  have hstore : store_refresh_token s uid secret (some ua) ip true now =
      (⟨revokeWhere (sameDeviceCond uid (some ua)) s.tokens ++
          [⟨s.nextId, uid, secret, now + refreshTokenLifetime, false, some ua, ip, now⟩],
        s.users, s.nextId + 1⟩,
        ⟨s.nextId, uid, secret, now + refreshTokenLifetime, false, some ua, ip, now⟩) := by
    simp [store_refresh_token, hcond]
  unfold LoginSameDeviceSpec
  rw [hstore]
  refine ⟨?_, ?_, ?_, ?_⟩
  · intro r hr huid huag hrev
    have hrevoke : ∀ r' ∈ revokeWhere (sameDeviceCond uid (some ua)) s.tokens ++
        [⟨s.nextId, uid, secret, now + refreshTokenLifetime, false, some ua, ip, now⟩],
        r'.id = r.id → r'.is_revoked = true := by
      intro r' hr' hid
      rcases List.mem_append.mp hr' with hL | hR
      · rcases mem_revokeWhere hL with ⟨t, ht, rfl⟩
        have hidt : t.id = r.id := by rw [← hid, id_of_ite_mark]
        have hteq : t = r := List.inj_on_of_nodup_map hnd ht hr hidt
        subst hteq
        apply revoked_ite_mark_of_true
        simp [sameDeviceCond, huid, huag, hrev]
      · have hr'' : r' =
            ⟨s.nextId, uid, secret, now + refreshTokenLifetime, false, some ua, ip, now⟩ := by
          simpa using hR
        rw [hr''] at hid
        simp only at hid
        exact absurd hid (by have := hb r hr; omega)
    refine ⟨hrevoke, ?_⟩
    intro sec now2 r0 hv h0
    have hprops := validate_eq_some_props hv
    have := hrevoke r0 hprops.1 h0
    rw [hprops.2.2.1] at this
    cases this
  · exact List.mem_append.mpr (Or.inr (by simp))
  · rfl
  · intro hfresh
    unfold validate_refresh_token
    rw [List.find?_append]
    have hnone : (revokeWhere (sameDeviceCond uid (some ua)) s.tokens).find?
        (fun r => r.token == secret && !r.is_revoked && decide (now < r.expires_at))
        = none := by
      apply List.find?_eq_none.mpr
      intro x hx hp
      rcases mem_revokeWhere hx with ⟨t, ht, rfl⟩
      simp only [Bool.and_eq_true, beq_iff_eq] at hp
      rw [token_of_ite_mark] at hp
      exact absurd hp.1.1 (hfresh t ht)
    rw [hnone]
    have hlt : now < now + refreshTokenLifetime := by
      have := refreshTokenLifetime_pos
      omega
    simp [hlt]

/-- Witness for C4: a second login from device "A" revokes the earlier active
token of device "A". -/
theorem store_refresh_token_revokes_same_device_witness :
    ("A" : String) ≠ "" ∧
    IdsBounded ⟨[⟨0, 1, "r1", 1000, false, some "A", none, 0⟩], [], 1⟩ ∧
    NodupIds [⟨0, 1, "r1", 1000, false, some "A", none, 0⟩] ∧
    LoginSameDeviceSpec ⟨[⟨0, 1, "r1", 1000, false, some "A", none, 0⟩], [], 1⟩
      1 "r2" "A" none 10 :=
  ⟨by decide, by decide, by decide,
    store_refresh_token_revokes_same_device
      ⟨[⟨0, 1, "r1", 1000, false, some "A", none, 0⟩], [], 1⟩ 1 "r2" "A" none 10
      (by decide) (by decide) (by decide)⟩

/-! ## Refresh-rotation lemmas -/

theorem isEmpty_false_of_ne {sec : String} (h : sec ≠ "") : sec.isEmpty = false := by
  cases hh : sec.isEmpty with
  | false => rfl
  | true => exact absurd ((String.isEmpty_iff sec).mp hh) h

theorem store_result_snd (s : Store) (uid : Nat) (tok : String)
    (ua ip : Option String) (rsd : Bool) (now : Int) :
    (store_refresh_token s uid tok ua ip rsd now).2 =
      ⟨s.nextId, uid, tok, now + refreshTokenLifetime, false, ua, ip, now⟩ := rfl

theorem store_result_tokens (s : Store) (uid : Nat) (tok : String)
    (ua ip : Option String) (rsd : Bool) (now : Int) :
    (store_refresh_token s uid tok ua ip rsd now).1.tokens =
      (if rsd && uaTruthy ua then revokeWhere (sameDeviceCond uid ua) s.tokens
        else s.tokens)
      ++ [⟨s.nextId, uid, tok, now + refreshTokenLifetime, false, ua, ip, now⟩] := rfl

theorem store_result_users (s : Store) (uid : Nat) (tok : String)
    (ua ip : Option String) (rsd : Bool) (now : Int) :
    (store_refresh_token s uid tok ua ip rsd now).1.users = s.users := rfl

theorem store_result_nextId (s : Store) (uid : Nat) (tok : String)
    (ua ip : Option String) (rsd : Bool) (now : Int) :
    (store_refresh_token s uid tok ua ip rsd now).1.nextId = s.nextId + 1 := rfl

theorem revoke_refresh_token_fst (s : Store) (t : String) :
    (revoke_refresh_token s t).1 =
      ⟨revokeWhere (fun r => r.token == t) s.tokens, s.users, s.nextId⟩ := rfl

theorem set_auth_tokens_fst (s : Store) (uid : Nat) (pub : String)
    (ua ip : Option String) (ns : String) (now : Int) :
    (set_auth_tokens s uid pub ua ip ns now).1 =
      (store_refresh_token s uid ns ua ip true now).1 := rfl

/-- Inversion of a successful `/refresh`: the presented secret was non-empty,
validated to an active row, the owner lookup succeeded with a matching id, and
the final store is consume-then-reissue. -/
theorem refresh_ok_elim {s : Store} {presented : Option String}
    {ua ip : Option String} {now : Int} {ns : String} {s' : Store}
    {resp : TokenResponse}
    (h : refresh_tokens s presented ua ip now ns = .ok s' resp) :
    ∃ t stored u, presented = some t ∧ t.isEmpty = false ∧
      validate_refresh_token s.tokens t now = some stored ∧
      find_user s.users stored.user_id = some u ∧ u.id = stored.user_id ∧
      s' = (set_auth_tokens (revoke_refresh_token s t).1 stored.user_id
              u.public_id ua ip ns now).1 := by
  cases presented with
  | none => simp [refresh_tokens] at h
  | some t =>
    by_cases he : t.isEmpty
    · simp [refresh_tokens, he] at h
    · cases hv : validate_refresh_token s.tokens t now with
      | none => simp [refresh_tokens, he, hv] at h
      | some stored =>
        cases hu : find_user s.users stored.user_id with
        | none => simp [refresh_tokens, he, hv, hu] at h
        | some u =>
          by_cases hid : u.id = stored.user_id
          · refine ⟨t, stored, u, rfl, by simp [he], hv, hu, hid, ?_⟩
            simp [refresh_tokens, he, hv, hu, hid] at h
            exact h.1.symm
          · simp [refresh_tokens, he, hv, hu, hid] at h

/-- After consume-then-reissue with a fresh replacement secret, every stored
row carrying the consumed secret is revoked. -/
theorem token_all_revoked_after_rotation {s : Store} {t : String} {uid : Nat}
    {pub : String} {ua ip : Option String} {now : Int} {ns : String}
    (hns : ns ≠ t) :
    ∀ r ∈ (set_auth_tokens (revoke_refresh_token s t).1 uid pub ua ip ns now).1.tokens,
      r.token = t → r.is_revoked = true := by
  intro r hr htok
  rw [set_auth_tokens_fst, store_result_tokens, revoke_refresh_token_fst] at hr
  have base : ∀ x ∈ revokeWhere (fun x : RefreshTokenRec => x.token == t) s.tokens,
      x.token = t → x.is_revoked = true := by
    intro x hx hxt
    rcases mem_revokeWhere hx with ⟨y, hy, rfl⟩
    by_cases hc : (y.token == t) = true
    · exact @revoked_ite_mark_of_true (fun x : RefreshTokenRec => x.token == t) y hc
    · rw [token_of_ite_mark (fun x : RefreshTokenRec => x.token == t) y] at hxt
      exact absurd (by simp [hxt]) hc
  rcases List.mem_append.mp hr with hL | hR
  · by_cases hcnd : (true && uaTruthy ua) = true
    · rw [if_pos hcnd] at hL
      rcases mem_revokeWhere hL with ⟨y, hy, rfl⟩
      rw [token_of_ite_mark (sameDeviceCond uid ua) y] at htok
      exact revoked_ite_mark_mono (base y hy htok)
    · rw [if_neg hcnd] at hL
      exact base r hL htok
  · have : r = ⟨(⟨revokeWhere (fun x : RefreshTokenRec => x.token == t) s.tokens,
        s.users, s.nextId⟩ : Store).nextId, uid, ns,
        now + refreshTokenLifetime, false, ua, ip, now⟩ := by simpa using hR
    rw [this] at htok
    simp only at htok
    exact absurd htok hns

/-! ## Claim C1 -/

/-- Claim C1: refresh rotation is single-use — once a refresh secret has been
consumed by a successful `/refresh` (which issues a fresh replacement secret),
presenting it again fails with the same invalid-or-expired error as an unknown
secret, issuing nothing and leaving the store unchanged. -/
theorem refresh_rotation_single_use (s : Store) (t : String)
    (ua ip : Option String) (now : Int) (ns : String) (s' : Store)
    (resp : TokenResponse)
    (h : refresh_tokens s (some t) ua ip now ns = .ok s' resp) (hns : ns ≠ t) :
    RotationSingleUseSpec s' t := by
  rcases refresh_ok_elim h with ⟨t', stored, u, ht', he, hv, hu, hid, hs'⟩
  injection ht' with hh
  rw [← hh] at he hv hs'
  have hall : ∀ r ∈ s'.tokens, r.token = t → r.is_revoked = true := by
    rw [hs']
    exact token_all_revoked_after_rotation hns
  constructor
  · intro ua2 ip2 now2 ns2
    have hvnone := validate_eq_none_of_all_revoked now2 hall
    simp [refresh_tokens, he, hvnone]
  · intro sec hsec hfresh ua3 ip3 now3 ns3
    have hvnone := validate_eq_none_of_fresh now3 hfresh
    simp [refresh_tokens, isEmpty_false_of_ne hsec, hvnone]

/-- Witness for C1: a concrete successful rotation, after which the consumed
secret behaves exactly like an unknown one. -/
theorem refresh_rotation_single_use_witness :
    refresh_tokens ⟨[⟨0, 1, "t1", 1000, false, some "X", none, 0⟩], [⟨1, "p1"⟩], 1⟩
        (some "t1") (some "X") none 10 "n1"
      = .ok ⟨[⟨0, 1, "t1", 1000, true, some "X", none, 0⟩,
              ⟨1, 1, "n1", 604810, false, some "X", none, 10⟩], [⟨1, "p1"⟩], 2⟩
          ⟨"p1", "n1"⟩ ∧
    ("n1" : String) ≠ "t1" ∧
    RotationSingleUseSpec
      ⟨[⟨0, 1, "t1", 1000, true, some "X", none, 0⟩,
        ⟨1, 1, "n1", 604810, false, some "X", none, 10⟩], [⟨1, "p1"⟩], 2⟩ "t1" :=
  ⟨by decide, by decide,
    refresh_rotation_single_use
      ⟨[⟨0, 1, "t1", 1000, false, some "X", none, 0⟩], [⟨1, "p1"⟩], 1⟩
      "t1" (some "X") none 10 "n1"
      ⟨[⟨0, 1, "t1", 1000, true, some "X", none, 0⟩,
        ⟨1, 1, "n1", 604810, false, some "X", none, 10⟩], [⟨1, "p1"⟩], 2⟩
      ⟨"p1", "n1"⟩ (by decide) (by decide)⟩

/-! ## Claim C2 -/

/-- Counterexample to claim C2 as stated: refreshing the device-"Y" token
"tb" with a request whose user-agent is "X" succeeds, but besides consuming
row 1 it ALSO revokes row 0 — a different active token (secret "ta") that was
not presented — because `set_auth_tokens` calls `store_refresh_token` with
`revoke_same_device` left at its default `True`. -/
theorem refresh_retriggers_same_device_revoke :
    (⟨0, 1, "ta", 1000, false, some "X", none, 0⟩ : RefreshTokenRec) ∈ c2Store.tokens ∧
    refresh_tokens c2Store (some "tb") (some "X") none 10 "tc"
      = .ok ⟨[⟨0, 1, "ta", 1000, true, some "X", none, 0⟩,
              ⟨1, 1, "tb", 1000, true, some "Y", none, 1⟩,
              ⟨2, 1, "tc", 604810, false, some "X", none, 10⟩], [⟨1, "p1"⟩], 3⟩
          ⟨"p1", "tc"⟩ := by
  decide

/-- Claim C2 (amended): during a successful refresh, a pre-existing record is
left unchanged provided it does not carry the consumed secret and is not an
active token of the same user whose device fingerprint equals the request's
present fingerprint — the insertion does re-trigger revoke-same-device, so
only records outside that set (in particular all records of other users and
all records with a different fingerprint) are guaranteed untouched. -/
theorem refresh_frame_amended (s : Store) (t : String) (ua ip : Option String)
    (now : Int) (ns : String) (s' : Store) (resp : TokenResponse)
    (r : RefreshTokenRec)
    (h : refresh_tokens s (some t) ua ip now ns = .ok s' resp)
    (hr : r ∈ s.tokens) (htok : r.token ≠ t)
    (hdev : ∀ stored, validate_refresh_token s.tokens t now = some stored →
        ¬(r.user_id = stored.user_id ∧ r.user_agent = ua ∧ r.is_revoked = false
            ∧ uaTruthy ua = true)) :
    r ∈ s'.tokens := by
  rcases refresh_ok_elim h with ⟨t', stored, u, ht', he, hv, hu, hid, hs'⟩
  injection ht' with hh
  rw [← hh] at hv hs'
  rw [hs', set_auth_tokens_fst, store_result_tokens, revoke_refresh_token_fst]
  apply List.mem_append.mpr
  left
  have hcf : (r.token == t) = false := by simp [htok]
  have h1 : r ∈ revokeWhere (fun x : RefreshTokenRec => x.token == t) s.tokens := by
    have hm := @mem_revokeWhere_of_mem (fun x : RefreshTokenRec => x.token == t)
      s.tokens r hr
    simpa [hcf] using hm
  by_cases hcnd : (true && uaTruthy ua) = true
  · rw [if_pos hcnd]
    have huat : uaTruthy ua = true := by simpa using hcnd
    have hsd : sameDeviceCond stored.user_id ua r = false := by
      cases hx : sameDeviceCond stored.user_id ua r with
      | false => rfl
      | true =>
        exfalso
        simp only [sameDeviceCond, Bool.and_eq_true, beq_iff_eq,
          Bool.not_eq_true'] at hx
        exact hdev stored hv ⟨hx.1.1, hx.1.2, hx.2, huat⟩
    have hm2 := @mem_revokeWhere_of_mem (sameDeviceCond stored.user_id ua)
      (revokeWhere (fun x : RefreshTokenRec => x.token == t) s.tokens) r h1
    simpa [hsd] using hm2
  · rw [if_neg hcnd]
    exact h1

/-- Witness for the amended C2: refreshing "tb" from its own device "Y"
leaves the unrelated device-"X" token untouched. -/
theorem refresh_frame_amended_witness :
    refresh_tokens c2Store (some "tb") (some "Y") none 10 "tc"
      = .ok ⟨[⟨0, 1, "ta", 1000, false, some "X", none, 0⟩,
              ⟨1, 1, "tb", 1000, true, some "Y", none, 1⟩,
              ⟨2, 1, "tc", 604810, false, some "Y", none, 10⟩], [⟨1, "p1"⟩], 3⟩
          ⟨"p1", "tc"⟩ ∧
    (⟨0, 1, "ta", 1000, false, some "X", none, 0⟩ : RefreshTokenRec) ∈ c2Store.tokens ∧
    ("ta" : String) ≠ "tb" ∧
    (⟨0, 1, "ta", 1000, false, some "X", none, 0⟩ : RefreshTokenRec) ∈
      (⟨[⟨0, 1, "ta", 1000, false, some "X", none, 0⟩,
         ⟨1, 1, "tb", 1000, true, some "Y", none, 1⟩,
         ⟨2, 1, "tc", 604810, false, some "Y", none, 10⟩], [⟨1, "p1"⟩], 3⟩ : Store).tokens := by
  have hdev : ∀ stored, validate_refresh_token c2Store.tokens "tb" 10 = some stored →
      ¬((⟨0, 1, "ta", 1000, false, some "X", none, 0⟩ : RefreshTokenRec).user_id
            = stored.user_id ∧
        (⟨0, 1, "ta", 1000, false, some "X", none, 0⟩ : RefreshTokenRec).user_agent
            = some "Y" ∧
        (⟨0, 1, "ta", 1000, false, some "X", none, 0⟩ : RefreshTokenRec).is_revoked
            = false ∧
        uaTruthy (some "Y") = true) := by
    intro stored hst
    have hvb : validate_refresh_token c2Store.tokens "tb" 10
        = some ⟨1, 1, "tb", 1000, false, some "Y", none, 1⟩ := by decide
    rw [hvb] at hst
    injection hst with hst'
    rw [← hst']
    intro hcon
    exact absurd hcon.2.1 (by decide)
  exact ⟨by decide, by decide, by decide,
    refresh_frame_amended c2Store "tb" (some "Y") none 10 "tc"
      ⟨[⟨0, 1, "ta", 1000, false, some "X", none, 0⟩,
        ⟨1, 1, "tb", 1000, true, some "Y", none, 1⟩,
        ⟨2, 1, "tc", 604810, false, some "Y", none, 10⟩], [⟨1, "p1"⟩], 3⟩
      ⟨"p1", "tc"⟩ ⟨0, 1, "ta", 1000, false, some "X", none, 0⟩
      (by decide) (by decide) (by decide) hdev⟩

/-! ## Claim C6 -/

/-- Claim C6 (code bug): the access verifier crashes with a `TypeError`
(rather than raising the expired-credential error) on a validly-decoded token
whose `exp` claim is missing, because `int(payload.get("exp"))` runs before
the `not expire` test; with `exp` present and in the past (one second before
`now`) the expired-credential error is raised as the claim describes. -/
theorem get_current_user_missing_exp_crashes :
    get_current_user (.ok ⟨none, some "u1"⟩) 0 []
      = .crash "TypeError: int() argument must not be NoneType" ∧
    get_current_user (.ok ⟨some (-1), some "u1"⟩) 0 [⟨1, "u1"⟩]
      = .err .tokenExpired := by
  constructor <;> rfl

/-! ## Claim C7 -/

/-- Claim C7 (code bug): when a valid active refresh token's owning user row
no longer exists, the `/refresh` handler evaluates `user.id` on `None` and
crashes with an `AttributeError` instead of raising the invalid-refresh-token
error (the subsequent `user.id != stored_token.user_id` comparison is
tautological, as the user was fetched by that very id). -/
theorem refresh_missing_owner_crashes :
    refresh_tokens ⟨[⟨0, 5, "t1", 1000, false, none, none, 0⟩], [], 1⟩
        (some "t1") none none 10 "n1"
      = .crash ⟨[⟨0, 5, "t1", 1000, false, none, none, 0⟩], [], 1⟩
          "AttributeError: NoneType object has no id" := by
  rfl

/-! ## Claim C3 -/

theorem revokedIdL_revokeWhere {l : List RefreshTokenRec} {rid : Nat}
    {c : RefreshTokenRec → Bool} (h : RevokedIdL l rid) :
    RevokedIdL (revokeWhere c l) rid := by
  intro r' hr' hid
  rcases mem_revokeWhere hr' with ⟨t, ht, rfl⟩
  rw [id_of_ite_mark c t] at hid
  exact revoked_ite_mark_mono (h t ht hid)

theorem boundedL_revokeWhere {l : List RefreshTokenRec} {n : Nat}
    {c : RefreshTokenRec → Bool} (h : BoundedL l n) :
    BoundedL (revokeWhere c l) n := by
  intro r' hr'
  rcases mem_revokeWhere hr' with ⟨t, ht, rfl⟩
  rw [id_of_ite_mark c t]
  exact h t ht

theorem revokedIdL_filter {l : List RefreshTokenRec} {rid : Nat}
    (p : RefreshTokenRec → Bool) (h : RevokedIdL l rid) :
    RevokedIdL (l.filter p) rid :=
  fun r hr hid => h r (List.mem_of_mem_filter hr) hid

theorem revokedIdL_append {l : List RefreshTokenRec} {rid : Nat}
    {x : RefreshTokenRec} (h : RevokedIdL l rid) (hx : x.id ≠ rid) :
    RevokedIdL (l ++ [x]) rid := by
  intro r hr hid
  rcases List.mem_append.mp hr with hL | hR
  · exact h r hL hid
  · have hrx : r = x := by simpa using hR
    rw [hrx] at hid
    exact absurd hid hx

theorem store_step_props (s : Store) (uid : Nat) (tok : String)
    (ua ip : Option String) (rsd : Bool) (now : Int) (rid : Nat)
    (hb : IdsBounded s) (hrid : rid < s.nextId) (hrev : RevokedIdL s.tokens rid) :
    IdsBounded (store_refresh_token s uid tok ua ip rsd now).1 ∧
    rid < (store_refresh_token s uid tok ua ip rsd now).1.nextId ∧
    RevokedIdL (store_refresh_token s uid tok ua ip rsd now).1.tokens rid := by
  refine ⟨?_, ?_, ?_⟩
  · intro r hr
    rw [store_result_nextId]
    rw [store_result_tokens] at hr
    rcases List.mem_append.mp hr with hL | hRi
    · have hlt : r.id < s.nextId := by
        by_cases hc : (rsd && uaTruthy ua) = true
        · rw [if_pos hc] at hL
          rcases mem_revokeWhere hL with ⟨t, ht, rfl⟩
          rw [id_of_ite_mark (sameDeviceCond uid ua) t]
          exact hb t ht
        · rw [if_neg hc] at hL
          exact hb r hL
      omega
    · have hrx : r = ⟨s.nextId, uid, tok, now + refreshTokenLifetime, false, ua, ip, now⟩ := by
        simpa using hRi
      rw [hrx]
      exact Nat.lt_succ_self s.nextId
  · rw [store_result_nextId]
    omega
  · rw [store_result_tokens]
    apply revokedIdL_append
    · by_cases hc : (rsd && uaTruthy ua) = true
      · rw [if_pos hc]
        exact revokedIdL_revokeWhere hrev
      · rw [if_neg hc]
        exact hrev
    · show s.nextId ≠ rid
      omega

/-- Case analysis on the store a `/refresh` call leaves behind: either nothing
changed (any rejection path), or it is the consume-then-reissue store. -/
theorem refresh_state_cases (s : Store) (p : Option String)
    (ua ip : Option String) (now : Int) (ns : String) :
    (refresh_tokens s p ua ip now ns).state = s ∨
    ∃ t uid pub, (refresh_tokens s p ua ip now ns).state
        = (set_auth_tokens (revoke_refresh_token s t).1 uid pub ua ip ns now).1 := by
  cases p with
  | none => left; rfl
  | some t =>
    by_cases he : t.isEmpty
    · left; simp [refresh_tokens, he, Outcome.state]
    · cases hv : validate_refresh_token s.tokens t now with
      | none => left; simp [refresh_tokens, he, hv, Outcome.state]
      | some stored =>
        cases hu : find_user s.users stored.user_id with
        | none => left; simp [refresh_tokens, he, hv, hu, Outcome.state]
        | some u =>
          by_cases hid : u.id = stored.user_id
          · right
            refine ⟨t, stored.user_id, u.public_id, ?_⟩
            simp [refresh_tokens, he, hv, hu, hid, Outcome.state]
          · left; simp [refresh_tokens, he, hv, hu, hid, Outcome.state]

theorem step_preserves (op : Op) (s : Store) (now : Int) (rid : Nat)
    (hb : IdsBounded s) (hrid : rid < s.nextId) (hrev : RevokedIdL s.tokens rid) :
    IdsBounded (stepState op s now) ∧ rid < (stepState op s now).nextId ∧
    RevokedIdL (stepState op s now).tokens rid := by
  cases op with
  | store uid sec ua ip rsd => exact store_step_props s uid sec ua ip rsd now rid hb hrid hrev
  | validate sec => exact ⟨hb, hrid, hrev⟩
  | listActive uid => exact ⟨hb, hrid, hrev⟩
  | revokeByToken sec =>
    exact ⟨boundedL_revokeWhere hb, hrid, revokedIdL_revokeWhere hrev⟩
  | revokeAll uid =>
    exact ⟨boundedL_revokeWhere hb, hrid, revokedIdL_revokeWhere hrev⟩
  | revokeById tid uid =>
    exact ⟨boundedL_revokeWhere hb, hrid, revokedIdL_revokeWhere hrev⟩
  | cleanup =>
    exact ⟨fun r hr => hb r (List.mem_of_mem_filter hr), hrid,
      revokedIdL_filter _ hrev⟩
  | capSessions uid n =>
    by_cases hn : n < 1
    · have heq : stepState (Op.capSessions uid n) s now = s := by
        simp [stepState, limit_sessions, hn, Outcome.state]
      rw [heq]
      exact ⟨hb, hrid, hrev⟩
    · by_cases hlen : n.toNat < (get_active_session_tokens s uid now).length
      · have heq : stepState (Op.capSessions uid n) s now =
            ⟨revokeWhere (fun r : RefreshTokenRec =>
                (((get_active_session_tokens s uid now).drop n.toNat).map
                  RefreshTokenRec.id).contains r.id) s.tokens,
              s.users, s.nextId⟩ := by
          simp [stepState, limit_sessions, hn, limit_active_sessions, hlen,
            Outcome.state]
        rw [heq]
        exact ⟨boundedL_revokeWhere hb, hrid, revokedIdL_revokeWhere hrev⟩
      · have heq : stepState (Op.capSessions uid n) s now = s := by
          simp [stepState, limit_sessions, hn, limit_active_sessions, hlen,
            Outcome.state]
        rw [heq]
        exact ⟨hb, hrid, hrev⟩
  | refresh p ua ip ns =>
    rcases refresh_state_cases s p ua ip now ns with hcase | ⟨t, uid, pub, hcase⟩
    · have heq : stepState (Op.refresh p ua ip ns) s now = s := hcase
      rw [heq]
      exact ⟨hb, hrid, hrev⟩
    · have heq : stepState (Op.refresh p ua ip ns) s now =
          (set_auth_tokens (revoke_refresh_token s t).1 uid pub ua ip ns now).1 :=
        hcase
      rw [heq, set_auth_tokens_fst]
      have hb1 : IdsBounded (revoke_refresh_token s t).1 :=
        boundedL_revokeWhere hb
      have hrev1 : RevokedIdL (revoke_refresh_token s t).1.tokens rid :=
        revokedIdL_revokeWhere hrev
      exact store_step_props (revoke_refresh_token s t).1 uid ns ua ip true now rid
        hb1 hrid hrev1

theorem runOps_cons (o : Op × Int) (ops : List (Op × Int)) (s : Store) :
    runOps (o :: ops) s = runOps ops (stepState o.1 s o.2) := rfl

theorem runOps_preserves (ops : List (Op × Int)) (s : Store) (rid : Nat)
    (hb : IdsBounded s) (hrid : rid < s.nextId) (hrev : RevokedIdL s.tokens rid) :
    IdsBounded (runOps ops s) ∧ rid < (runOps ops s).nextId ∧
    RevokedIdL (runOps ops s).tokens rid := by
  induction ops generalizing s with
  | nil => exact ⟨hb, hrid, hrev⟩
  | cons o ops ih =>
    rw [runOps_cons]
    rcases step_preserves o.1 s o.2 rid hb hrid hrev with ⟨h1, h2, h3⟩
    exact ih _ h1 h2 h3

/-- Claim C3: revocation is monotonic — starting from a well-formed store (ids
bounded by the counter and pairwise distinct) in which row `r` is revoked,
after ANY sequence of core operations every row with `r`'s id is still
revoked, and `find_active` can never return a row with that id. -/
theorem revocation_monotonic (s : Store) (r : RefreshTokenRec)
    (ops : List (Op × Int))
    (hb : IdsBounded s) (hnd : NodupIds s.tokens)
    (hr : r ∈ s.tokens) (hrev : r.is_revoked = true) :
    RevocationMonotonicSpec (runOps ops s) r.id := by
  have hrid : r.id < s.nextId := hb r hr
  have hrev0 : RevokedIdL s.tokens r.id := by
    intro r' hr' hid
    have hre : r' = r := List.inj_on_of_nodup_map hnd hr' hr hid
    rw [hre]
    exact hrev
  rcases runOps_preserves ops s r.id hb hrid hrev0 with ⟨-, -, hfin⟩
  refine ⟨hfin, ?_⟩
  intro sec now2 r0 hv h0
  have hp := validate_eq_some_props hv
  have hcontra := hfin r0 hp.1 h0
  rw [hp.2.2.1] at hcontra
  cases hcontra

/-- Witness for C3: a revoked row stays invisible to `find_active` through a
login, a session cap and a cleanup sweep. -/
theorem revocation_monotonic_witness :
    IdsBounded ⟨[⟨0, 1, "a", 1000, true, some "X", none, 0⟩], [⟨1, "p1"⟩], 1⟩ ∧
    NodupIds [⟨0, 1, "a", 1000, true, some "X", none, 0⟩] ∧
    (⟨0, 1, "a", 1000, true, some "X", none, 0⟩ : RefreshTokenRec) ∈
      (⟨[⟨0, 1, "a", 1000, true, some "X", none, 0⟩], [⟨1, "p1"⟩], 1⟩ : Store).tokens ∧
    (⟨0, 1, "a", 1000, true, some "X", none, 0⟩ : RefreshTokenRec).is_revoked = true ∧
    RevocationMonotonicSpec
      (runOps [(Op.store 1 "b" (some "X") none true, 5),
               (Op.capSessions 1 3, 6), (Op.cleanup, 7)]
        ⟨[⟨0, 1, "a", 1000, true, some "X", none, 0⟩], [⟨1, "p1"⟩], 1⟩)
      (⟨0, 1, "a", 1000, true, some "X", none, 0⟩ : RefreshTokenRec).id :=
  ⟨by decide, by decide, by decide, by decide,
    revocation_monotonic ⟨[⟨0, 1, "a", 1000, true, some "X", none, 0⟩], [⟨1, "p1"⟩], 1⟩
      ⟨0, 1, "a", 1000, true, some "X", none, 0⟩
      [(Op.store 1 "b" (some "X") none true, 5),
       (Op.capSessions 1 3, 6), (Op.cleanup, 7)]
      (by decide) (by decide) (by decide) (by decide)⟩

/-! ## Claim C5 -/

theorem countP_or_disjoint {α : Type} (p q : α → Bool) (l : List α)
    (hdisj : ∀ a ∈ l, ¬(p a = true ∧ q a = true)) :
    l.countP (fun a => p a || q a) = l.countP p + l.countP q := by
  induction l with
  | nil => rfl
  | cons a l ih =>
    have hd : ∀ x ∈ l, ¬(p x = true ∧ q x = true) := fun x hx =>
      hdisj x (List.mem_cons_of_mem a hx)
    have hih := ih hd
    by_cases hp : p a = true
    · have hq : q a = false := by
        cases hqq : q a with
        | false => rfl
        | true => exact absurd ⟨hp, hqq⟩ (hdisj a (List.mem_cons_self a l))
      simp [List.countP_cons, hp, hq, hih]
      omega
    · by_cases hq : q a = true
      · simp [List.countP_cons, hp, hq, hih]
        omega
      · simp [List.countP_cons, hp, hq, hih]

/-- In a list with pairwise-distinct primary keys, the rows matched by an
`id IN (...)` clause over distinct keys that all occur in the list are counted
exactly once each. -/
theorem countP_contains_eq_length (l : List RefreshTokenRec) (hnd : NodupIds l) :
    ∀ ids : List Nat, ids.Nodup →
      (∀ i ∈ ids, i ∈ l.map RefreshTokenRec.id) →
      l.countP (fun r => ids.contains r.id) = ids.length := by
  intro ids
  induction ids with
  | nil =>
    intro _ _
    simp [List.countP_eq_zero]
  | cons i ids ih =>
    intro hnodup hsub
    have hi : i ∉ ids := (List.nodup_cons.mp hnodup).1
    have hids : ids.Nodup := (List.nodup_cons.mp hnodup).2
    have hsub2 : ∀ j ∈ ids, j ∈ l.map RefreshTokenRec.id := fun j hj =>
      hsub j (List.mem_cons_of_mem i hj)
    have hstep : l.countP (fun r => (i :: ids).contains r.id)
        = l.countP (fun r => (r.id == i) || ids.contains r.id) :=
      List.countP_congr fun r _ => Iff.rfl
    rw [hstep, countP_or_disjoint]
    · have h1 : l.countP (fun r => r.id == i) = 1 := by
        have hmap := List.countP_map (fun x => x == i) RefreshTokenRec.id l
        have hcount : (l.map RefreshTokenRec.id).count i = 1 :=
          List.count_eq_one_of_mem hnd (hsub i (List.mem_cons_self i ids))
        rw [show (l.map RefreshTokenRec.id).count i
            = (l.map RefreshTokenRec.id).countP (fun x => x == i) from rfl,
          hmap] at hcount
        exact hcount
      rw [h1, ih hids hsub2, List.length_cons]
      omega
    · intro r _ hcon
      rcases hcon with ⟨h1, h2⟩
      have h1b : r.id = i := by simpa using h1
      have h2b : r.id ∈ ids := by simpa using h2
      rw [h1b] at h2b
      exact hi h2b

/-- Claim C5: capping a user's sessions to `n ≥ 1` revokes exactly the active
sessions beyond the `n` most-recently-created ones (the active list is sorted
newest-first), leaves every other row unchanged, and returns the number
revoked; a requested cap below 1 is rejected as a client error with no change
to any stored token. -/
theorem cap_sessions_spec (s : Store) (uid : Nat) (now : Int) (n : Int)
    (hnd : NodupIds s.tokens) : CapSessionsSpec s uid now n := by
  constructor
  · intro hn
    simp [limit_sessions, hn]
  · intro hn1
    have hn : ¬ n < 1 := by omega
    have hperm : (get_active_session_tokens s uid now).Perm
        (s.tokens.filter (activeFor uid now)) :=
      List.perm_insertionSort newestFirst _
    have hfilnd : NodupIds (s.tokens.filter (activeFor uid now)) :=
      hnd.sublist ((List.filter_sublist s.tokens).map RefreshTokenRec.id)
    have hLnd : NodupIds (get_active_session_tokens s uid now) :=
      (hperm.map RefreshTokenRec.id).nodup_iff.mpr hfilnd
    refine ⟨List.sorted_insertionSort newestFirst _, hperm, ?_⟩
    by_cases hlen : n.toNat < (get_active_session_tokens s uid now).length
    · refine ⟨⟨revokeWhere (fun r : RefreshTokenRec =>
          (((get_active_session_tokens s uid now).drop n.toNat).map
            RefreshTokenRec.id).contains r.id) s.tokens, s.users, s.nextId⟩,
        ?_, ?_, ?_, ?_⟩
      · have hidsnd : ((((get_active_session_tokens s uid now).drop n.toNat).map
            RefreshTokenRec.id)).Nodup := by
          rw [List.map_drop]
          exact hLnd.sublist (List.drop_sublist _ _)
        have hsubl : ∀ i ∈ (((get_active_session_tokens s uid now).drop n.toNat).map
            RefreshTokenRec.id), i ∈ s.tokens.map RefreshTokenRec.id := by
          intro i hi
          rcases List.mem_map.mp hi with ⟨r, hr, rfl⟩
          have hrL : r ∈ get_active_session_tokens s uid now :=
            List.mem_of_mem_drop hr
          have hrf : r ∈ s.tokens.filter (activeFor uid now) :=
            hperm.mem_iff.mp hrL
          exact List.mem_map_of_mem RefreshTokenRec.id (List.mem_of_mem_filter hrf)
        have hcnt : rowcount (fun r : RefreshTokenRec =>
            (((get_active_session_tokens s uid now).drop n.toNat).map
              RefreshTokenRec.id).contains r.id) s.tokens
            = ((get_active_session_tokens s uid now).drop n.toNat).length := by
          rw [rowcount_eq_countP,
            countP_contains_eq_length s.tokens hnd _ hidsnd hsubl,
            List.length_map]
        have heq : limit_sessions s uid now n
            = .ok ⟨revokeWhere (fun r : RefreshTokenRec =>
                (((get_active_session_tokens s uid now).drop n.toNat).map
                  RefreshTokenRec.id).contains r.id) s.tokens, s.users, s.nextId⟩
              (rowcount (fun r : RefreshTokenRec =>
                (((get_active_session_tokens s uid now).drop n.toNat).map
                  RefreshTokenRec.id).contains r.id) s.tokens) := by
          simp [limit_sessions, hn, limit_active_sessions, hlen]
        rw [heq, hcnt]
      · intro r hr hfalse
        exact mem_revokeWhere_self hr hfalse
      · intro r2 hr2 htrue
        rcases mem_revokeWhere hr2 with ⟨t, ht, rfl⟩
        rw [id_of_ite_mark (fun r : RefreshTokenRec =>
          (((get_active_session_tokens s uid now).drop n.toNat).map
            RefreshTokenRec.id).contains r.id) t] at htrue
        exact @revoked_ite_mark_of_true (fun r : RefreshTokenRec =>
          (((get_active_session_tokens s uid now).drop n.toNat).map
            RefreshTokenRec.id).contains r.id) t htrue
      · intro r hrtake
        have hrL : r ∈ get_active_session_tokens s uid now :=
          List.mem_of_mem_take hrtake
        have hrs : r ∈ s.tokens :=
          List.mem_of_mem_filter (hperm.mem_iff.mp hrL)
        have hnotin : r.id ∉ (((get_active_session_tokens s uid now).drop
            n.toNat).map RefreshTokenRec.id) := by
          rw [List.map_drop]
          have hidin : r.id ∈ ((get_active_session_tokens s uid now).map
              RefreshTokenRec.id).take n.toNat := by
            rw [← List.map_take]
            exact List.mem_map_of_mem RefreshTokenRec.id hrtake
          have hnodupL : (((get_active_session_tokens s uid now).map
              RefreshTokenRec.id).take n.toNat ++
              ((get_active_session_tokens s uid now).map
                RefreshTokenRec.id).drop n.toNat).Nodup := by
            rw [List.take_append_drop]
            exact hLnd
          have hdisj := (List.nodup_append.mp hnodupL).2.2
          exact fun hmem => hdisj hidin hmem
        have hcf : ((((get_active_session_tokens s uid now).drop n.toNat).map
            RefreshTokenRec.id).contains r.id) = false := by
          cases hc : ((((get_active_session_tokens s uid now).drop n.toNat).map
              RefreshTokenRec.id).contains r.id) with
          | false => rfl
          | true => exact absurd (by simpa using hc) hnotin
        exact mem_revokeWhere_self hrs hcf
    · have hD : (get_active_session_tokens s uid now).drop n.toNat = [] :=
        List.drop_eq_nil_of_le (by omega)
      refine ⟨s, ?_, ?_, ?_, ?_⟩
      · have heq : limit_sessions s uid now n = .ok s 0 := by
          simp [limit_sessions, hn, limit_active_sessions, hlen]
        rw [hD]
        exact heq
      · intro r hr _
        exact hr
      · intro r2 hr2 htrue
        rw [hD] at htrue
        simp at htrue
      · intro r hrtake
        exact List.mem_of_mem_filter (hperm.mem_iff.mp (List.mem_of_mem_take hrtake))

/-- Witness for C5: three active sessions capped to 1. -/
theorem cap_sessions_spec_witness :
    NodupIds [⟨0, 1, "a", 1000, false, none, none, 0⟩,
      ⟨1, 1, "b", 1000, false, none, none, 5⟩,
      ⟨2, 1, "c", 1000, false, none, none, 9⟩] ∧
    CapSessionsSpec ⟨[⟨0, 1, "a", 1000, false, none, none, 0⟩,
      ⟨1, 1, "b", 1000, false, none, none, 5⟩,
      ⟨2, 1, "c", 1000, false, none, none, 9⟩], [⟨1, "p1"⟩], 3⟩ 1 100 1 :=
  ⟨by decide,
    cap_sessions_spec ⟨[⟨0, 1, "a", 1000, false, none, none, 0⟩,
      ⟨1, 1, "b", 1000, false, none, none, 5⟩,
      ⟨2, 1, "c", 1000, false, none, none, 9⟩], [⟨1, "p1"⟩], 3⟩ 1 100 1 (by decide)⟩

end HabitTracker
